import Mathlib

/-!
Shallow embedding of `scripts/generate_assets.py` (ClipShip repository):
a batch script that, per requested catalog entry, issues one HTTP request to
an image-generation API, extracts an inline base64 payload from the JSON
response, decodes it, writes the bytes to a file, and finally derives resized
icons and prints a success tally.

Python exceptions are modelled with `Except Unit`; Python `None` and JSON
`null` are both `JVal.null`; HTTP bodies that are not valid JSON are
`Option.none` (so that `response.json()` raising is visible in the model).
-/

namespace ClipShip

/-- JSON-like values as produced by Python `response.json()`. -/
inductive JVal where
  | null : JVal
  | bool : Bool → JVal
  | num : Int → JVal
  | str : String → JVal
  | arr : List JVal → JVal
  | obj : List (String × JVal) → JVal
  deriving Repr

/-- Python truthiness (`if not x`) on JSON-like values. -/
def JVal.truthy : JVal → Bool
  | JVal.null => false
  | JVal.bool b => b
  | JVal.num n => n != 0
  | JVal.str s => s != ""
  | JVal.arr xs => !xs.isEmpty
  | JVal.obj kvs => !kvs.isEmpty

/-- Python `x.get(k, d)`: only dicts have `.get`; anything else raises
`AttributeError` (modelled as `Except.error`). -/
def JVal.getD (j : JVal) (k : String) (d : JVal) : Except Unit JVal :=
  match j with
  | JVal.obj kvs => Except.ok ((kvs.lookup k).getD d)
  | _ => Except.error ()

/-- Python subscripting `x[k]` with a string key: dicts return the value or
raise `KeyError`; all other values raise `TypeError`. -/
def JVal.getItem (j : JVal) (k : String) : Except Unit JVal :=
  match j with
  | JVal.obj kvs =>
    match kvs.lookup k with
    | some v => Except.ok v
    | none => Except.error ()
  | _ => Except.error ()

/-- Python `x[0]`: lists yield their head (or raise `IndexError` when empty),
strings yield their first character as a one-character string, everything
else raises `TypeError`. -/
def JVal.index0 : JVal → Except Unit JVal
  | JVal.arr (x :: _) => Except.ok x
  | JVal.arr [] => Except.error ()
  | JVal.str s =>
    match s.toList with
    | c :: _ => Except.ok (JVal.str (String.mk [c]))
    | [] => Except.error ()
  | _ => Except.error ()

/-- Python `k in x` for a string `k`: dict key membership, substring test on
strings, element membership on lists; raises `TypeError` otherwise. -/
def JVal.hasKey (j : JVal) (k : String) : Except Unit Bool :=
  match j with
  | JVal.obj kvs => Except.ok (kvs.any (fun kv => kv.1 == k))
  | JVal.str s => Except.ok (decide ((s.splitOn k).length > 1))
  | JVal.arr xs =>
    Except.ok (xs.any (fun x => match x with | JVal.str t => t == k | _ => false))
  | _ => Except.error ()

/-- Python `for x in parts`: lists iterate elements, strings iterate
one-character strings, dicts iterate keys; other values raise `TypeError`. -/
def JVal.iterElems : JVal → Except Unit (List JVal)
  | JVal.arr xs => Except.ok xs
  | JVal.str s => Except.ok (s.toList.map (fun c => JVal.str (String.mk [c])))
  | JVal.obj kvs => Except.ok (kvs.map (fun kv => JVal.str kv.1))
  | _ => Except.error ()

/-- Value of a standard base64 alphabet character, `none` for anything else. -/
def b64charVal (c : Char) : Option Nat :=
  let n := c.toNat
  if 65 ≤ n ∧ n ≤ 90 then some (n - 65)
  else if 97 ≤ n ∧ n ≤ 122 then some (n - 97 + 26)
  else if 48 ≤ n ∧ n ≤ 57 then some (n - 48 + 52)
  else if n = 43 then some 62
  else if n = 47 then some 63
  else none

/-- Models Python `base64.b64decode` on standard inputs: four-character
groups of alphabet characters, with `=` padding allowed only at the end;
anything else raises `binascii.Error` (modelled as `Except.error`). -/
def b64decodeChars : List Char → Except Unit (List Nat)
  | [] => Except.ok []
  | c1 :: c2 :: c3 :: c4 :: rest =>
    match b64charVal c1, b64charVal c2 with
    | some a, some b =>
      if c3 = '=' then
        if c4 = '=' ∧ rest = [] then Except.ok [(a * 4 + b / 16) % 256]
        else Except.error ()
      else
        match b64charVal c3 with
        | some c =>
          if c4 = '=' then
            if rest = [] then
              Except.ok [(a * 4 + b / 16) % 256, ((b % 16) * 16 + c / 4) % 256]
            else Except.error ()
          else
            match b64charVal c4 with
            | some d =>
              match b64decodeChars rest with
              | Except.ok tail =>
                Except.ok ((a * 4 + b / 16) % 256 ::
                  ((b % 16) * 16 + c / 4) % 256 :: ((c % 4) * 64 + d) % 256 :: tail)
              | Except.error e => Except.error e
            | none => Except.error ()
        | none => Except.error ()
    | _, _ => Except.error ()
  | _ => Except.error ()

/-- Python `base64.b64decode` on a string argument. -/
def b64decode (s : String) : Except Unit (List Nat) :=
  b64decodeChars s.toList

/-- One HTTP response as seen by the client. `body = none` means the body is
not valid JSON, so that `response.json()` raises. -/
structure HttpResponse where
  status : Nat
  body : Option JVal
  deriving Repr

/-- Outcome of one `generate_image_with_gemini` call: decoded bytes, the
Python `None` return (absent result), or an exception escaping the function. -/
inductive ClientResult where
  | success : List Nat → ClientResult
  | absent : ClientResult
  | exc : ClientResult
  deriving Repr, DecidableEq

/-- The `for part in parts` loop of `generate_image_with_gemini`, which
breaks at the first part containing an `inlineData` key and reads that part's
`data` field (`JVal.null` when the loop finds no such part, mirroring the
Python initialisation `image_data = None`). -/
def findInlineData : List JVal → Except Unit JVal
  | [] => Except.ok JVal.null
  | p :: rest =>
    match p.hasKey "inlineData" with
    | Except.error e => Except.error e
    | Except.ok true =>
      match p.getItem "inlineData" with
      | Except.error e => Except.error e
      | Except.ok inner => inner.getD "data" JVal.null
    | Except.ok false => findInlineData rest

/-- Body of the `try` block of `generate_image_with_gemini` (lines 339-361):
`Except.error` is an exception reaching the `except` clause, `Except.ok none`
is an explicit `return None`, `Except.ok (some bs)` is decoded image bytes. -/
def parseImageE (result : JVal) : Except Unit (Option (List Nat)) :=
  Except.bind (result.getD "candidates" (JVal.arr [])) (fun candidates =>
    if candidates.truthy then
      Except.bind candidates.index0 (fun c0 =>
        Except.bind (c0.getD "content" (JVal.obj [])) (fun content =>
          Except.bind (content.getD "parts" (JVal.arr [])) (fun parts =>
            Except.bind parts.iterElems (fun partsList =>
              Except.bind (findInlineData partsList) (fun image_data =>
                if image_data.truthy then
                  match image_data with
                  | JVal.str s =>
                    Except.bind (b64decode s) (fun bs => Except.ok (some bs))
                  | _ => Except.error ()
                else Except.ok none)))))
    else Except.ok none)

/-- `generate_image_with_gemini` (lines 304-366): issues exactly one HTTP
request (no retry) and inspects the response. A non-200 status returns
`None`; `result = response.json()` sits OUTSIDE the `try` block, so a 200
response whose body is not valid JSON raises out of the function
(`ClientResult.exc`); exceptions inside the `try` block are converted to
`None` by the `except` clause. -/
def generate_image_with_gemini (resp : HttpResponse) : ClientResult :=
  if resp.status ≠ 200 then ClientResult.absent
  else
    match resp.body with
    | none => ClientResult.exc
    | some result =>
      match parseImageE result with
      | Except.error _ => ClientResult.absent
      | Except.ok none => ClientResult.absent
      | Except.ok (some bs) => ClientResult.success bs

/-- One catalog entry of `IMAGE_PROMPTS`: display title, generation prompt
and output filename. Prompt texts are abbreviated to their opening line; no
claim depends on the prompt contents. -/
structure AssetSpec where
  title : String
  prompt : String
  filename : String
  deriving Repr, DecidableEq

/-- The static prompt catalog `IMAGE_PROMPTS` (lines 44-301), in source
(insertion) order, which is the iteration order of a Python dict. -/
def IMAGE_PROMPTS : List (String × AssetSpec) :=
  [("icon",
    { title := "PasteHost アイコン (128x128)",
      prompt := "Create a modern app icon for \"PasteHost\" - a clipboard deployment tool.",
      filename := "icon128.png" }),
   ("promo_small",
    { title := "Small Promo Tile (440x280)",
      prompt := "Create a promotional banner for \"PasteHost\" Chrome extension.",
      filename := "promo_small_440x280.png" }),
   ("promo_large",
    { title := "Large Promo Tile (920x680)",
      prompt := "Create a large promotional banner for \"PasteHost\" Chrome extension.",
      filename := "promo_large_920x680.png" }),
   ("screenshot_popup",
    { title := "Screenshot - Popup UI (1280x800)",
      prompt := "Create a screenshot mockup for PasteHost Chrome extension popup.",
      filename := "screenshot_popup_1280x800.png" }),
   ("screenshot_result",
    { title := "Screenshot - Deploy Result (1280x800)",
      prompt := "Create a screenshot showing PasteHost deployment result.",
      filename := "screenshot_result_1280x800.png" }),
   ("screenshot_options",
    { title := "Screenshot - Options Page (1280x800)",
      prompt := "Create a screenshot of PasteHost options/settings page.",
      filename := "screenshot_options_1280x800.png" })]

/-- Target resolution in `main` (lines 446-449): `"all"` selects the whole
catalog, a named target selects exactly that entry. The `argparse` choices
(line 418) guarantee any other string never reaches `main`, so the empty
list models the unreachable `KeyError` case. -/
def targetsFor (target : String) : List (String × AssetSpec) :=
  if target = "all" then IMAGE_PROMPTS
  else
    match IMAGE_PROMPTS.lookup target with
    | some cfg => [(target, cfg)]
    | none => []

/-- Per-entry outcome stored in the `results` dict of `main`. -/
structure EntryResult where
  success : Bool
  filename : Option String
  deriving Repr, DecidableEq

/-- Overwriting file write under the output directory: the filesystem is the
association list of `(filename, bytes)` written so far. -/
def fsWrite (files : List (String × List Nat)) (filename : String)
    (image_data : List Nat) : List (String × List Nat) :=
  (files.filter (fun f => f.1 != filename)) ++ [(filename, image_data)]

/-- `save_image` (lines 369-378): writes the bytes verbatim to
`OUTPUT_DIR/filename` and returns the filepath (here, the filename). -/
def save_image (files : List (String × List Nat)) (image_data : List Nat)
    (filename : String) : List (String × List Nat) × String :=
  (fsWrite files filename image_data, filename)

/-- Mutable state of the `main` loop: the `results` dict (as an ordered
association list), the files written so far, the log of entries for which an
HTTP request was issued (exactly one per processed entry), and `icon_path`. -/
structure RunState where
  results : List (String × EntryResult)
  files : List (String × List Nat)
  requests : List String
  icon_path : Option String
  deriving Repr, DecidableEq

/-- Initial state of the `main` loop (lines 451-452). -/
def initState : RunState :=
  { results := [], files := [], requests := [], icon_path := none }

/-- One iteration of the `main` loop (lines 454-480) for entry
`(image_id, config)`: call the client (one HTTP request), on a falsy result
record a failure and continue, otherwise save the image, record a success,
and remember `icon_path` when the entry is `"icon"`. An exception escaping
the client crashes the run (`Except.error`). -/
def processEntry (env : String → HttpResponse) (st : RunState)
    (e : String × AssetSpec) : Except Unit RunState :=
  let st₁ : RunState := { st with requests := st.requests ++ [e.1] }
  match generate_image_with_gemini (env e.1) with
  | ClientResult.exc => Except.error ()
  | ClientResult.absent =>
    Except.ok { st₁ with
      results := st₁.results ++ [(e.1, { success := false, filename := none })] }
  | ClientResult.success bs =>
    if bs.length = 0 then
      Except.ok { st₁ with
        results := st₁.results ++ [(e.1, { success := false, filename := none })] }
    else
      let saved := save_image st₁.files bs e.2.filename
      Except.ok { st₁ with
        results := st₁.results ++
          [(e.1, { success := true, filename := some e.2.filename })],
        files := saved.1,
        icon_path := if e.1 = "icon" then some saved.2 else st₁.icon_path }

/-- The `for image_id, config in targets.items()` loop of `main`, processing
the selected entries in order. -/
def runLoop (env : String → HttpResponse) :
    List (String × AssetSpec) → RunState → Except Unit RunState
  | [], st => Except.ok st
  | e :: es, st => Except.bind (processEntry env st e) (runLoop env es)

/-- Observable outcome of a completed run of `main`: per-entry results,
files written, request log, number of `create_icon_sizes` invocations, and
the final `成功: success_count/len(IMAGE_PROMPTS)` tally. -/
structure RunOutcome where
  results : List (String × EntryResult)
  files : List (String × List Nat)
  requests : List String
  derivationCalls : Nat
  success_count : Nat
  total : Nat
  deriving Repr, DecidableEq, Inhabited

/-- `main` (lines 425-520) for a given per-entry HTTP environment: run the
loop over the selected targets, then invoke `create_icon_sizes` once iff
`icon_path` is set and that file exists, then compute the summary tally,
whose denominator is `len(IMAGE_PROMPTS)` (line 502). `Except.error` is a
run crashed by an uncaught exception. -/
def runMain (env : String → HttpResponse) (target : String) :
    Except Unit RunOutcome :=
  match runLoop env (targetsFor target) initState with
  | Except.error er => Except.error er
  | Except.ok st =>
    Except.ok
      { results := st.results,
        files := st.files,
        requests := st.requests,
        derivationCalls :=
          match st.icon_path with
          | some p => if (st.files.lookup p).isSome then 1 else 0
          | none => 0,
        success_count := (st.results.filter (fun r => r.2.success)).length,
        total := IMAGE_PROMPTS.length }

/-- A response part carrying inline data `s`. -/
def inlinePart (s : String) : JVal :=
  JVal.obj [("inlineData", JVal.obj [("data", JVal.str s)])]

/-- A well-formed response body whose first candidate has parts `ps`; `extra`
is the list of further candidates. -/
def mkBody (ps : List JVal) (extra : List JVal) : JVal :=
  JVal.obj [("candidates",
    JVal.arr (JVal.obj [("content", JVal.obj [("parts", JVal.arr ps)])] :: extra))]

/-- A successful response carrying the base64 payload `QUJD` (bytes 65 66 67). -/
def okBody : JVal := mkBody [inlinePart "QUJD"] []

/-- Environment in which every request succeeds with payload `QUJD`. -/
def demoEnvOk : String → HttpResponse :=
  fun _ => { status := 200, body := some okBody }

/-- Environment in which the `promo_small` request gets HTTP 500 and every
other request succeeds. -/
def demoEnvOneFail : String → HttpResponse :=
  fun id =>
    if id = "promo_small" then { status := 500, body := none }
    else { status := 200, body := some okBody }

/-- A response body whose single part has no inline data. -/
def noInlineBody : JVal := mkBody [JVal.obj [("text", JVal.str "no image")]] []

/-- Environment in which every request returns 200 with a body that carries
no inline image data. -/
def demoEnvNoInline : String → HttpResponse :=
  fun _ => { status := 200, body := some noInlineBody }

/-- The catalog entry for the primary icon. -/
def iconSpec : AssetSpec :=
  { title := "PasteHost アイコン (128x128)"
    prompt := "Create a modern app icon for \"PasteHost\" - a clipboard deployment tool."
    filename := "icon128.png" }

/-- The run outcome of a single-target `icon` run under `demoEnvOk`. -/
def demoIconOutcome : RunOutcome :=
  { results := [("icon", { success := true, filename := some "icon128.png" })]
    files := [("icon128.png", [65, 66, 67])]
    requests := ["icon"]
    derivationCalls := 1
    success_count := 1
    total := 6 }

/-- The run outcome of an `all` run under `demoEnvOk`. -/
def demoAllOutcome : RunOutcome :=
  ((runMain demoEnvOk "all").toOption).getD default

/-- The run outcome of an `all` run under `demoEnvOneFail`. -/
def demoOneFailOutcome : RunOutcome :=
  ((runMain demoEnvOneFail "all").toOption).getD default

/-- The run outcome of a single-target `promo_large` run under `demoEnvOk`. -/
def demoPromoOutcome : RunOutcome :=
  ((runMain demoEnvOk "promo_large").toOption).getD default

lemma lookup_append_of_some {β : Type} {k : String} {v : β}
    {l₁ : List (String × β)} (l₂ : List (String × β))
    (h : l₁.lookup k = some v) : (l₁ ++ l₂).lookup k = some v := by
  induction l₁ with
  | nil => simp [List.lookup_nil] at h
  | cons hd tl ih =>
    obtain ⟨k1, v1⟩ := hd
    rw [List.lookup_cons] at h
    rw [List.cons_append, List.lookup_cons]
    cases hk : (k == k1)
    · simp only [hk] at h ⊢
      exact ih h
    · simp only [hk] at h ⊢
      exact h

lemma lookup_append_of_not_mem {β : Type} {k : String}
    {l₁ : List (String × β)} (l₂ : List (String × β))
    (h : k ∉ l₁.map Prod.fst) : (l₁ ++ l₂).lookup k = l₂.lookup k := by
  induction l₁ with
  | nil => simp
  | cons hd tl ih =>
    obtain ⟨k1, v1⟩ := hd
    simp only [List.map_cons, List.mem_cons, not_or] at h
    have hk2 : (k == k1) = false := by
      simpa using h.1
    rw [List.cons_append, List.lookup_cons]
    simp only [hk2]
    exact ih h.2

lemma lookup_cons_self {β : Type} {k : String} {v : β} {l : List (String × β)} :
    ((k, v) :: l).lookup k = some v := by
  rw [List.lookup_cons]
  simp

lemma mem_of_lookup {β : Type} {l : List (String × β)} {k : String} {v : β}
    (h : l.lookup k = some v) : (k, v) ∈ l := by
  rcases List.lookup_eq_some_iff.mp h with ⟨l₁, l₂, rfl, -⟩
  simp

lemma processEntry_absent (env : String → HttpResponse) (st : RunState)
    (e : String × AssetSpec)
    (habs : generate_image_with_gemini (env e.1) = ClientResult.absent) :
    processEntry env st e = Except.ok
      { st with
          requests := st.requests ++ [e.1]
          results := st.results ++ [(e.1, { success := false, filename := none })] } := by
  simp [processEntry, habs]

lemma processEntry_success (env : String → HttpResponse) (st : RunState)
    (e : String × AssetSpec) (bs : List Nat)
    (hgen : generate_image_with_gemini (env e.1) = ClientResult.success bs)
    (hbs : bs ≠ []) :
    processEntry env st e = Except.ok
      { requests := st.requests ++ [e.1]
        results := st.results ++ [(e.1, { success := true, filename := some e.2.filename })]
        files := fsWrite st.files e.2.filename bs
        icon_path := if e.1 = "icon" then some e.2.filename else st.icon_path } := by
  have hlen : ¬ bs.length = 0 := by simpa using hbs
  simp [processEntry, hgen, hlen, save_image]

lemma processEntry_empty (env : String → HttpResponse) (st : RunState)
    (e : String × AssetSpec) (bs : List Nat)
    (hgen : generate_image_with_gemini (env e.1) = ClientResult.success bs)
    (hbs : bs = []) :
    processEntry env st e = Except.ok
      { st with
          requests := st.requests ++ [e.1]
          results := st.results ++ [(e.1, { success := false, filename := none })] } := by
  subst hbs
  simp [processEntry, hgen]


lemma processEntry_exc (env : String → HttpResponse) (st : RunState)
    (e : String × AssetSpec)
    (hgen : generate_image_with_gemini (env e.1) = ClientResult.exc) :
    processEntry env st e = Except.error () := by
  simp [processEntry, hgen]

lemma processEntry_absent_fields (env : String → HttpResponse) (st : RunState)
    (e : String × AssetSpec) (st₂ : RunState)
    (hgen : generate_image_with_gemini (env e.1) = ClientResult.absent)
    (hp : processEntry env st e = Except.ok st₂) :
    st₂.requests = st.requests ++ [e.1] ∧
    st₂.results = st.results ++ [(e.1, { success := false, filename := none })] ∧
    st₂.files = st.files ∧ st₂.icon_path = st.icon_path := by
  have heq := (Except.ok.inj ((processEntry_absent env st e hgen).symm.trans hp)).symm
  subst heq
  exact ⟨rfl, rfl, rfl, rfl⟩

lemma processEntry_empty_fields (env : String → HttpResponse) (st : RunState)
    (e : String × AssetSpec) (st₂ : RunState) (bs : List Nat)
    (hgen : generate_image_with_gemini (env e.1) = ClientResult.success bs)
    (hbs : bs = [])
    (hp : processEntry env st e = Except.ok st₂) :
    st₂.requests = st.requests ++ [e.1] ∧
    st₂.results = st.results ++ [(e.1, { success := false, filename := none })] ∧
    st₂.files = st.files ∧ st₂.icon_path = st.icon_path := by
  have heq := (Except.ok.inj ((processEntry_empty env st e bs hgen hbs).symm.trans hp)).symm
  subst heq
  exact ⟨rfl, rfl, rfl, rfl⟩

lemma processEntry_success_fields (env : String → HttpResponse) (st : RunState)
    (e : String × AssetSpec) (st₂ : RunState) (bs : List Nat)
    (hgen : generate_image_with_gemini (env e.1) = ClientResult.success bs)
    (hbs : bs ≠ [])
    (hp : processEntry env st e = Except.ok st₂) :
    st₂.requests = st.requests ++ [e.1] ∧
    st₂.results = st.results ++ [(e.1, { success := true, filename := some e.2.filename })] ∧
    st₂.files = fsWrite st.files e.2.filename bs ∧
    st₂.icon_path = (if e.1 = "icon" then some e.2.filename else st.icon_path) := by
  have heq := (Except.ok.inj ((processEntry_success env st e bs hgen hbs).symm.trans hp)).symm
  subst heq
  exact ⟨rfl, rfl, rfl, rfl⟩

lemma processEntry_ok_spec (env : String → HttpResponse) (st : RunState)
    (e : String × AssetSpec) (st₂ : RunState)
    (hp : processEntry env st e = Except.ok st₂) :
    st₂.requests = st.requests ++ [e.1] ∧
    (∃ r : EntryResult, st₂.results = st.results ++ [(e.1, r)]) ∧
    (∀ f ∈ st₂.files, f ∈ st.files ∨ f.1 = e.2.filename) := by
  cases hgen : generate_image_with_gemini (env e.1) with
  | exc => rw [processEntry_exc env st e hgen] at hp; cases hp
  | absent =>
    obtain ⟨h1, h2, h3, -⟩ := processEntry_absent_fields env st e st₂ hgen hp
    exact ⟨h1, ⟨_, h2⟩, fun f hf => Or.inl (h3 ▸ hf)⟩
  | success bs =>
    rcases eq_or_ne bs [] with hbs | hbs
    · obtain ⟨h1, h2, h3, -⟩ := processEntry_empty_fields env st e st₂ bs hgen hbs hp
      exact ⟨h1, ⟨_, h2⟩, fun f hf => Or.inl (h3 ▸ hf)⟩
    · obtain ⟨h1, h2, h3, -⟩ := processEntry_success_fields env st e st₂ bs hgen hbs hp
      refine ⟨h1, ⟨_, h2⟩, ?_⟩
      intro f hf
      rw [h3] at hf
      simp only [fsWrite, List.mem_append, List.mem_filter, List.mem_singleton] at hf
      rcases hf with ⟨hf1, -⟩ | rfl
      · exact Or.inl hf1
      · exact Or.inr rfl

lemma runLoop_requests (env : String → HttpResponse)
    (es : List (String × AssetSpec)) :
    ∀ st st' : RunState, runLoop env es st = Except.ok st' →
      st'.requests = st.requests ++ es.map Prod.fst := by
  induction es with
  | nil =>
    intro st st' h
    simp only [runLoop] at h
    obtain rfl := Except.ok.inj h
    simp
  | cons e es ih =>
    intro st st' h
    simp only [runLoop] at h
    cases hp : processEntry env st e with
    | error er => rw [hp] at h; simp [Except.bind] at h
    | ok st₂ =>
      rw [hp] at h
      simp only [Except.bind] at h
      have h1 := (processEntry_ok_spec env st e st₂ hp).1
      have h2 := ih st₂ st' h
      rw [h2, h1]
      simp

lemma runLoop_results_extend (env : String → HttpResponse)
    (es : List (String × AssetSpec)) :
    ∀ st st' : RunState, runLoop env es st = Except.ok st' →
      ∃ tail : List (String × EntryResult),
        st'.results = st.results ++ tail ∧ tail.map Prod.fst = es.map Prod.fst := by
  induction es with
  | nil =>
    intro st st' h
    simp only [runLoop] at h
    obtain rfl := Except.ok.inj h
    exact ⟨[], by simp, by simp⟩
  | cons e es ih =>
    intro st st' h
    simp only [runLoop] at h
    cases hp : processEntry env st e with
    | error er => rw [hp] at h; simp [Except.bind] at h
    | ok st₂ =>
      rw [hp] at h
      simp only [Except.bind] at h
      obtain ⟨r, hr⟩ := (processEntry_ok_spec env st e st₂ hp).2.1
      obtain ⟨tail, ht1, ht2⟩ := ih st₂ st' h
      refine ⟨(e.1, r) :: tail, ?_, ?_⟩
      · rw [ht1, hr]
        simp
      · simp [ht2]

lemma runLoop_files (env : String → HttpResponse)
    (es : List (String × AssetSpec)) :
    ∀ st st' : RunState, runLoop env es st = Except.ok st' →
      ∀ f ∈ st'.files, f ∈ st.files ∨ f.1 ∈ es.map (fun e => e.2.filename) := by
  induction es with
  | nil =>
    intro st st' h f hf
    simp only [runLoop] at h
    obtain rfl := Except.ok.inj h
    exact Or.inl hf
  | cons e es ih =>
    intro st st' h f hf
    simp only [runLoop] at h
    cases hp : processEntry env st e with
    | error er => rw [hp] at h; simp [Except.bind] at h
    | ok st₂ =>
      rw [hp] at h
      simp only [Except.bind] at h
      rcases ih st₂ st' h f hf with h1 | h1
      · rcases (processEntry_ok_spec env st e st₂ hp).2.2 f h1 with h2 | h2
        · exact Or.inl h2
        · refine Or.inr ?_
          simp only [List.map_cons, List.mem_cons]
          exact Or.inl h2
      · refine Or.inr ?_
        simp only [List.map_cons, List.mem_cons]
        exact Or.inr h1


lemma runLoop_lookup_absent (env : String → HttpResponse)
    (es : List (String × AssetSpec)) :
    ∀ (st st' : RunState) (e : String × AssetSpec),
      runLoop env es st = Except.ok st' →
      e ∈ es →
      generate_image_with_gemini (env e.1) = ClientResult.absent →
      e.1 ∉ st.results.map Prod.fst →
      (es.map Prod.fst).Nodup →
      st'.results.lookup e.1 = some { success := false, filename := none } := by
  induction es with
  | nil =>
    intro st st' e h hmem
    cases hmem
  | cons e0 es ih =>
    intro st st' e h hmem habs hnotin hnd
    simp only [runLoop] at h
    cases hp : processEntry env st e0 with
    | error er => rw [hp] at h; simp [Except.bind] at h
    | ok st₂ =>
      rw [hp] at h
      simp only [Except.bind] at h
      rcases List.mem_cons.mp hmem with rfl | hmem2
      · obtain ⟨-, hres, -, -⟩ := processEntry_absent_fields env st e st₂ habs hp
        obtain ⟨tail, ht1, ht2⟩ := runLoop_results_extend env es st₂ st' h
        rw [ht1, hres, List.append_assoc]
        rw [lookup_append_of_not_mem _ hnotin]
        rw [List.singleton_append]
        exact lookup_cons_self
      · obtain ⟨r, hr⟩ := (processEntry_ok_spec env st e0 st₂ hp).2.1
        have he1 : e.1 ∈ es.map Prod.fst := List.mem_map_of_mem Prod.fst hmem2
        have hne : e.1 ≠ e0.1 := fun hEq => (List.nodup_cons.mp hnd).1 (hEq ▸ he1)
        apply ih st₂ st' e h hmem2 habs ?_ (List.nodup_cons.mp hnd).2
        rw [hr]
        simp only [List.map_append, List.map_cons, List.map_nil, List.mem_append,
          List.mem_cons, List.not_mem_nil, or_false]
        rintro (hin | hin)
        · exact hnotin hin
        · exact hne hin

lemma runLoop_icon (env : String → HttpResponse)
    (es : List (String × AssetSpec)) :
    ∀ st st' : RunState,
      runLoop env es st = Except.ok st' →
      (∀ e ∈ es, e.1 = "icon" → e.2.filename = "icon128.png") →
      (∀ e ∈ es, e.1 ∉ st.results.map Prod.fst) →
      (es.map Prod.fst).Nodup →
      (∀ p, st.icon_path = some p → p = "icon128.png" ∧
        st.results.lookup "icon" = some { success := true, filename := some "icon128.png" }) →
      ∀ p, st'.icon_path = some p → p = "icon128.png" ∧
        st'.results.lookup "icon" = some { success := true, filename := some "icon128.png" } := by
  induction es with
  | nil =>
    intro st st' h _ _ _ hI
    simp only [runLoop] at h
    obtain rfl := Except.ok.inj h
    exact hI
  | cons e es ih =>
    intro st st' h hup hdisj hnd hI
    simp only [runLoop] at h
    cases hp : processEntry env st e with
    | error er => rw [hp] at h; simp [Except.bind] at h
    | ok st₂ =>
      rw [hp] at h
      simp only [Except.bind] at h
      have hdisj₂ : ∀ e2 ∈ es, e2.1 ∉ st₂.results.map Prod.fst := by
        intro e2 he2
        obtain ⟨r, hr⟩ := (processEntry_ok_spec env st e st₂ hp).2.1
        rw [hr]
        simp only [List.map_append, List.map_cons, List.map_nil, List.mem_append,
          List.mem_cons, List.not_mem_nil, or_false]
        rintro (hin | hin)
        · exact hdisj e2 (List.mem_cons_of_mem e he2) hin
        · have he1 : e2.1 ∈ es.map Prod.fst := List.mem_map_of_mem Prod.fst he2
          exact (List.nodup_cons.mp hnd).1 (hin ▸ he1)
      apply ih st₂ st' h (fun e2 he2 => hup e2 (List.mem_cons_of_mem e he2)) hdisj₂
        (List.nodup_cons.mp hnd).2
      cases hgen : generate_image_with_gemini (env e.1) with
      | exc => rw [processEntry_exc env st e hgen] at hp; cases hp
      | absent =>
        obtain ⟨-, hres, -, hip⟩ := processEntry_absent_fields env st e st₂ hgen hp
        intro p hps
        rw [hip] at hps
        obtain ⟨h1, h2⟩ := hI p hps
        refine ⟨h1, ?_⟩
        rw [hres]
        exact lookup_append_of_some _ h2
      | success bs =>
        rcases eq_or_ne bs [] with hbs | hbs
        · obtain ⟨-, hres, -, hip⟩ := processEntry_empty_fields env st e st₂ bs hgen hbs hp
          intro p hps
          rw [hip] at hps
          obtain ⟨h1, h2⟩ := hI p hps
          refine ⟨h1, ?_⟩
          rw [hres]
          exact lookup_append_of_some _ h2
        · obtain ⟨-, hres, -, hip⟩ := processEntry_success_fields env st e st₂ bs hgen hbs hp
          intro p hps
          rw [hip] at hps
          by_cases hicon : e.1 = "icon"
          · rw [if_pos hicon] at hps
            have hfn : e.2.filename = "icon128.png" := hup e (List.mem_cons_self e es) hicon
            rw [hfn] at hps
            obtain rfl : p = "icon128.png" := (Option.some.inj hps).symm
            refine ⟨rfl, ?_⟩
            have hnm : e.1 ∉ st.results.map Prod.fst := hdisj e (List.mem_cons_self e es)
            rw [hres, hfn]
            rw [show ("icon" : String) = e.1 from hicon.symm]
            rw [lookup_append_of_not_mem _ hnm]
            exact lookup_cons_self
          · rw [if_neg hicon] at hps
            obtain ⟨h1, h2⟩ := hI p hps
            refine ⟨h1, ?_⟩
            rw [hres]
            exact lookup_append_of_some _ h2


lemma findInlineData_none (ps : List JVal)
    (h : ∀ q ∈ ps, q.hasKey "inlineData" = Except.ok false) :
    findInlineData ps = Except.ok JVal.null := by
  induction ps with
  | nil => rfl
  | cons p rest ih =>
    simp only [findInlineData]
    rw [h p (List.mem_cons_self p rest)]
    exact ih (fun q hq => h q (List.mem_cons_of_mem p hq))

lemma findInlineData_first (pre : List JVal) (p : JVal) (rest : List JVal)
    (inner : List (String × JVal))
    (hpre : ∀ q ∈ pre, q.hasKey "inlineData" = Except.ok false)
    (hkey : p.hasKey "inlineData" = Except.ok true)
    (hinner : p.getItem "inlineData" = Except.ok (JVal.obj inner)) :
    findInlineData (pre ++ p :: rest) =
      Except.ok ((inner.lookup "data").getD JVal.null) := by
  induction pre with
  | nil =>
    simp only [List.nil_append, findInlineData]
    rw [hkey, hinner]
    rfl
  | cons q pre ih =>
    simp only [List.cons_append, findInlineData]
    rw [hpre q (List.mem_cons_self q pre)]
    exact ih (fun q2 hq2 => hpre q2 (List.mem_cons_of_mem q hq2))

lemma parseImageE_shape (kvs ckvs contkvs : List (String × JVal)) (cs ps : List JVal)
    (fid : JVal)
    (hc : kvs.lookup "candidates" = some (JVal.arr (JVal.obj ckvs :: cs)))
    (hcon : ckvs.lookup "content" = some (JVal.obj contkvs))
    (hparts : contkvs.lookup "parts" = some (JVal.arr ps))
    (hfind : findInlineData ps = Except.ok fid) :
    parseImageE (JVal.obj kvs) =
      (if fid.truthy then
        match fid with
        | JVal.str s => Except.bind (b64decode s) (fun bs => Except.ok (some bs))
        | _ => Except.error ()
      else Except.ok none) := by
  simp only [parseImageE, JVal.getD, hc, hcon, hparts, hfind, Option.getD_some,
    Except.bind, JVal.truthy, JVal.index0, JVal.iterElems, List.isEmpty_cons,
    Bool.not_false, if_true]


lemma lookup_all_none : IMAGE_PROMPTS.lookup "all" = none := rfl

lemma targetsFor_all : targetsFor "all" = IMAGE_PROMPTS := rfl

lemma targetsFor_single (t : String) (cfg : AssetSpec)
    (hlk : IMAGE_PROMPTS.lookup t = some cfg) : targetsFor t = [(t, cfg)] := by
  have hne : t ≠ "all" := by
    intro hEq
    rw [hEq, lookup_all_none] at hlk
    cases hlk
  simp [targetsFor, hne, hlk]

lemma targetsFor_mem (target : String) (e : String × AssetSpec)
    (h : e ∈ targetsFor target) : e ∈ IMAGE_PROMPTS := by
  by_cases ht : target = "all"
  · rw [ht, targetsFor_all] at h
    exact h
  · cases hlk : IMAGE_PROMPTS.lookup target with
    | none =>
      rw [show targetsFor target = [] from by simp [targetsFor, ht, hlk]] at h
      cases h
    | some cfg =>
      rw [targetsFor_single target cfg hlk] at h
      obtain rfl := List.mem_singleton.mp h
      exact mem_of_lookup hlk

lemma targetsFor_nodup (target : String) : ((targetsFor target).map Prod.fst).Nodup := by
  by_cases ht : target = "all"
  · rw [ht, targetsFor_all]
    decide
  · cases hlk : IMAGE_PROMPTS.lookup target with
    | none =>
      rw [show targetsFor target = [] from by simp [targetsFor, ht, hlk]]
      simp
    | some cfg =>
      rw [targetsFor_single target cfg hlk]
      simp

lemma generate_200_body (resp : HttpResponse) (j : JVal)
    (hs : resp.status = 200) (hb : resp.body = some j) :
    generate_image_with_gemini resp =
      (match parseImageE j with
       | Except.error _ => ClientResult.absent
       | Except.ok none => ClientResult.absent
       | Except.ok (some bs) => ClientResult.success bs) := by
  simp [generate_image_with_gemini, hs, hb]

lemma client_non200 (resp : HttpResponse) (hs : resp.status ≠ 200) :
    generate_image_with_gemini resp = ClientResult.absent := by
  simp [generate_image_with_gemini, hs]

lemma client_success_of_parse (resp : HttpResponse) (j : JVal) (bs : List Nat)
    (hs : resp.status = 200) (hb : resp.body = some j)
    (hp : parseImageE j = Except.ok (some bs)) :
    generate_image_with_gemini resp = ClientResult.success bs := by
  rw [generate_200_body resp j hs hb, hp]

lemma client_absent_of_parse_none (resp : HttpResponse) (j : JVal)
    (hs : resp.status = 200) (hb : resp.body = some j)
    (hp : parseImageE j = Except.ok none) :
    generate_image_with_gemini resp = ClientResult.absent := by
  rw [generate_200_body resp j hs hb, hp]

lemma runLoop_single (env : String → HttpResponse) (e : String × AssetSpec)
    (st st₂ : RunState) (h : processEntry env st e = Except.ok st₂) :
    runLoop env [e] st = Except.ok st₂ := by
  simp only [runLoop]
  rw [h]
  simp [Except.bind, runLoop]

lemma runMain_intro (env : String → HttpResponse) (target : String) (st : RunState)
    (h : runLoop env (targetsFor target) initState = Except.ok st) :
    runMain env target = Except.ok
      { results := st.results
        files := st.files
        requests := st.requests
        derivationCalls :=
          match st.icon_path with
          | some p => if (st.files.lookup p).isSome then 1 else 0
          | none => 0
        success_count := (st.results.filter (fun r => r.2.success)).length
        total := IMAGE_PROMPTS.length } := by
  unfold runMain
  rw [h]

lemma runMain_ok_elim {env : String → HttpResponse} {target : String} {o : RunOutcome}
    (h : runMain env target = Except.ok o) :
    ∃ st : RunState, runLoop env (targetsFor target) initState = Except.ok st ∧
      o.results = st.results ∧ o.files = st.files ∧ o.requests = st.requests ∧
      o.total = IMAGE_PROMPTS.length ∧
      o.success_count = (st.results.filter (fun r => r.2.success)).length ∧
      o.derivationCalls =
        (match st.icon_path with
         | some p => if (st.files.lookup p).isSome then 1 else 0
         | none => 0) := by
  unfold runMain at h
  cases hl : runLoop env (targetsFor target) initState with
  | error er => rw [hl] at h; cases h
  | ok st =>
    rw [hl] at h
    refine ⟨st, rfl, ?_⟩
    have h2 := Except.ok.inj h
    rw [← h2]
    exact ⟨rfl, rfl, rfl, rfl, rfl, rfl⟩

lemma runMain_single_absent (env : String → HttpResponse) (t : String) (cfg : AssetSpec)
    (hlk : IMAGE_PROMPTS.lookup t = some cfg)
    (habs : generate_image_with_gemini (env t) = ClientResult.absent) :
    runMain env t = Except.ok
      { results := [(t, { success := false, filename := none })]
        files := []
        requests := [t]
        derivationCalls := 0
        success_count := 0
        total := 6 } := by
  have hpe := processEntry_absent env initState (t, cfg) habs
  have hloop := runLoop_single env (t, cfg) initState _ hpe
  exact runMain_intro env t _ (by rw [targetsFor_single t cfg hlk]; exact hloop)

lemma runMain_single_success (env : String → HttpResponse) (t : String)
    (cfg : AssetSpec) (bs : List Nat)
    (hlk : IMAGE_PROMPTS.lookup t = some cfg)
    (hgen : generate_image_with_gemini (env t) = ClientResult.success bs)
    (hbs : bs ≠ []) :
    runMain env t = Except.ok
      { results := [(t, { success := true, filename := some cfg.filename })]
        files := [(cfg.filename, bs)]
        requests := [t]
        derivationCalls := if t = "icon" then 1 else 0
        success_count := 1
        total := 6 } := by
  have hpe := processEntry_success env initState (t, cfg) bs hgen hbs
  have hloop := runLoop_single env (t, cfg) initState _ hpe
  have hmain := runMain_intro env t _ (by rw [targetsFor_single t cfg hlk]; exact hloop)
  rw [hmain]
  by_cases ht : t = "icon"
  · simp only [ht, fsWrite, initState, lookup_cons_self]
    simp [lookup_cons_self]
    rfl
  · simp [ht, fsWrite, initState]
    rfl


/-- C1 (counterexample): requesting only the `icon` target with a successful
provider yields exactly one requested entry and one success, yet the final
tally denominator is the full catalog size 6, not the number of requested
entries — the summary reports 1 of 6, not 1 of 1 as the claim states. -/
theorem C1_counterexample :
    runMain demoEnvOk "icon" = Except.ok demoIconOutcome ∧
    demoIconOutcome.results.length = 1 ∧
    demoIconOutcome.success_count = 1 ∧
    demoIconOutcome.total = 6 ∧ ¬ demoIconOutcome.total = 1 :=
  ⟨rfl, rfl, rfl, rfl, by decide⟩

/-- C1 (amended): for every single-target run whose requested entry
succeeds, the final tally numerator counts only that entry (1 success) but
the denominator is the whole catalog size `len(IMAGE_PROMPTS)` = 6, not the
number of requested entries. -/
theorem C1_amended (t : String) (cfg : AssetSpec) (env : String → HttpResponse)
    (bs : List Nat) (o : RunOutcome)
    (hlk : IMAGE_PROMPTS.lookup t = some cfg)
    (hgen : generate_image_with_gemini (env t) = ClientResult.success bs)
    (hbs : bs ≠ [])
    (hrun : runMain env t = Except.ok o) :
    o.success_count = 1 ∧ o.total = 6 := by
  have hmain := runMain_single_success env t cfg bs hlk hgen hbs
  rw [hmain] at hrun
  obtain rfl := Except.ok.inj hrun
  exact ⟨rfl, rfl⟩

/-- C1 (witness): the amended statement at the concrete single-target
`icon` run under `demoEnvOk`. -/
theorem C1_amended_witness :
    IMAGE_PROMPTS.lookup "icon" = some iconSpec ∧
    demoIconOutcome.success_count = 1 ∧ demoIconOutcome.total = 6 :=
  ⟨rfl,
    C1_amended "icon" iconSpec demoEnvOk [65, 66, 67] demoIconOutcome rfl rfl
      (by decide) rfl⟩

/-- C2 (counterexample): a 200 response whose body is not valid JSON makes
`response.json()` raise outside the `try` block, so the exception escapes
the client as an unhandled fault instead of becoming an absent result. -/
theorem C2_counterexample :
    generate_image_with_gemini { status := 200, body := none } = ClientResult.exc ∧
    ClientResult.exc ≠ ClientResult.absent :=
  ⟨rfl, by decide⟩

/-- C2 (amended): for every 200 response whose body is valid JSON, any
exception raised while interpreting the parsed body is caught by the
`except` clause and converted to an absent result; only the initial JSON
decoding of the raw body, which happens outside the `try` block, can
propagate an unhandled fault. -/
theorem C2_amended (resp : HttpResponse) (j : JVal)
    (h200 : resp.status = 200) (hb : resp.body = some j) :
    generate_image_with_gemini resp ≠ ClientResult.exc := by
  rw [generate_200_body resp j h200 hb]
  cases hp : parseImageE j with
  | error er => simp
  | ok o => cases o <;> simp

/-- C2 (witness): the amended statement at a concrete 200 response whose
body is the empty JSON object. -/
theorem C2_amended_witness :
    generate_image_with_gemini { status := 200, body := some (JVal.obj []) } ≠
      ClientResult.exc :=
  C2_amended { status := 200, body := some (JVal.obj []) } (JVal.obj []) rfl rfl

/-- A response body whose first part has an `inlineData` key with no `data`
field while a later part carries decodable inline data. -/
def keyNoDataBody : JVal :=
  mkBody [JVal.obj [("inlineData", JVal.obj [])], inlinePart "QUJD"] []

/-- C3 (counterexample): with a first part whose `inlineData` object has no
`data` field and a second part carrying payload `QUJD` (which decodes to
bytes 65 66 67), the client returns an absent result, not the decode of the
first data-carrying part as the claim states. -/
theorem C3_counterexample :
    generate_image_with_gemini { status := 200, body := some keyNoDataBody } =
      ClientResult.absent ∧
    b64decode "QUJD" = Except.ok [65, 66, 67] ∧
    ClientResult.absent ≠ ClientResult.success [65, 66, 67] :=
  ⟨rfl, rfl, by decide⟩

/-- C3 (amended): the part loop stops at the first part containing an
`inlineData` key, whether or not that part carries data; when this first
key-bearing part maps `data` to a non-empty string whose base64 decode
succeeds, the client returns those decoded bytes, whatever the parts before
(key-free) and after it contain. -/
theorem C3_amended (kvs ckvs contkvs inner : List (String × JVal))
    (cs pre rest : List JVal) (p : JVal) (s : String) (bs : List Nat)
    (hc : kvs.lookup "candidates" = some (JVal.arr (JVal.obj ckvs :: cs)))
    (hcon : ckvs.lookup "content" = some (JVal.obj contkvs))
    (hparts : contkvs.lookup "parts" = some (JVal.arr (pre ++ p :: rest)))
    (hpre : ∀ q ∈ pre, q.hasKey "inlineData" = Except.ok false)
    (hkey : p.hasKey "inlineData" = Except.ok true)
    (hinner : p.getItem "inlineData" = Except.ok (JVal.obj inner))
    (hdata : inner.lookup "data" = some (JVal.str s))
    (hs : s ≠ "")
    (hdec : b64decode s = Except.ok bs) :
    generate_image_with_gemini { status := 200, body := some (JVal.obj kvs) } =
      ClientResult.success bs := by
  have hf : findInlineData (pre ++ p :: rest) = Except.ok (JVal.str s) := by
    rw [findInlineData_first pre p rest inner hpre hkey hinner, hdata]
    rfl
  apply client_success_of_parse _ (JVal.obj kvs) bs rfl rfl
  rw [parseImageE_shape kvs ckvs contkvs cs (pre ++ p :: rest) (JVal.str s) hc hcon
    hparts hf]
  simp [JVal.truthy, hs, hdec, Except.bind]

/-- Parts before and after the data-carrying part of the C3 witness body. -/
def w3pre : List JVal := [JVal.obj [("text", JVal.str "x")]]

/-- The trailing part of the C3 witness body: an `inlineData` key, no data. -/
def w3rest : List JVal := [JVal.obj [("inlineData", JVal.obj [])]]

/-- Innermost object of the C3 witness body. -/
def w3contkvs : List (String × JVal) :=
  [("parts", JVal.arr (w3pre ++ inlinePart "QUJD" :: w3rest))]

/-- First-candidate object of the C3 witness body. -/
def w3ckvs : List (String × JVal) := [("content", JVal.obj w3contkvs)]

/-- Top-level object of the C3 witness body. -/
def w3kvs : List (String × JVal) := [("candidates", JVal.arr [JVal.obj w3ckvs])]

/-- C3 (witness): the amended statement at a concrete body whose first
key-bearing part carries payload `QUJD`, preceded by a key-free part and
followed by a key-bearing part without data. -/
theorem C3_amended_witness :
    generate_image_with_gemini { status := 200, body := some (JVal.obj w3kvs) } =
      ClientResult.success [65, 66, 67] :=
  C3_amended w3kvs w3ckvs w3contkvs [("data", JVal.str "QUJD")] []
    w3pre w3rest (inlinePart "QUJD") "QUJD" [65, 66, 67]
    rfl rfl rfl
    (fun q hq => by rw [List.mem_singleton.mp hq]; rfl)
    rfl rfl rfl (by decide) rfl


/-- C4: for every single-target run in which the provider returns a 200
response carrying a valid base64 payload, the bytes persisted under the
entry's output filename equal the base64 decode of that payload exactly. -/
theorem C4_roundtrip (t : String) (cfg : AssetSpec) (env : String → HttpResponse)
    (s : String) (bs : List Nat) (o : RunOutcome)
    (hlk : IMAGE_PROMPTS.lookup t = some cfg)
    (henv : env t = { status := 200, body := some (mkBody [inlinePart s] []) })
    (hdec : b64decode s = Except.ok bs)
    (hbs : bs ≠ [])
    (hrun : runMain env t = Except.ok o) :
    o.files.lookup cfg.filename = some bs := by
  have hs : s ≠ "" := by
    intro hEq
    subst hEq
    rw [show b64decode "" = Except.ok [] from rfl] at hdec
    exact hbs (Except.ok.inj hdec).symm
  have hparse : parseImageE (mkBody [inlinePart s] []) = Except.ok (some bs) := by
    simp only [mkBody]
    have hf : findInlineData [inlinePart s] = Except.ok (JVal.str s) := rfl
    rw [parseImageE_shape [("candidates", JVal.arr (JVal.obj [("content",
        JVal.obj [("parts", JVal.arr [inlinePart s])])] :: []))]
      [("content", JVal.obj [("parts", JVal.arr [inlinePart s])])]
      [("parts", JVal.arr [inlinePart s])] [] [inlinePart s] (JVal.str s)
      rfl rfl rfl hf]
    simp [JVal.truthy, hs, hdec, Except.bind]
  have hgen : generate_image_with_gemini (env t) = ClientResult.success bs := by
    rw [henv]
    exact client_success_of_parse _ (mkBody [inlinePart s] []) bs rfl rfl hparse
  have hmain := runMain_single_success env t cfg bs hlk hgen hbs
  rw [hmain] at hrun
  obtain rfl := Except.ok.inj hrun
  exact lookup_cons_self

/-- C4 (witness): the round-trip statement at the concrete `icon` run under
`demoEnvOk`, payload `QUJD` decoding to bytes 65 66 67. -/
theorem C4_witness :
    b64decode "QUJD" = Except.ok [65, 66, 67] ∧
    demoIconOutcome.files.lookup "icon128.png" = some [65, 66, 67] :=
  ⟨rfl,
    C4_roundtrip "icon" iconSpec demoEnvOk "QUJD" [65, 66, 67] demoIconOutcome
      rfl rfl rfl (by decide) rfl⟩

/-- C5: requesting `all` processes every catalog entry exactly once in
catalog-definition order, independently of the environment: the request log
and the recorded results enumerate exactly the catalog identifiers, in
order and without duplicates. -/
theorem C5_all_entries (env : String → HttpResponse) (o : RunOutcome)
    (hrun : runMain env "all" = Except.ok o) :
    o.requests = IMAGE_PROMPTS.map Prod.fst ∧
    o.results.map Prod.fst = IMAGE_PROMPTS.map Prod.fst ∧
    (IMAGE_PROMPTS.map Prod.fst).Nodup := by
  obtain ⟨st, hloop, hres, hfiles, hreq, -, -, -⟩ := runMain_ok_elim hrun
  rw [targetsFor_all] at hloop
  refine ⟨?_, ?_, by decide⟩
  · rw [hreq, runLoop_requests env IMAGE_PROMPTS initState st hloop]
    simp [initState]
  · obtain ⟨tail, ht1, ht2⟩ := runLoop_results_extend env IMAGE_PROMPTS initState st hloop
    rw [hres, ht1]
    simp [initState]
    simpa using ht2

/-- C5 (witness): the statement at the concrete `all` run under `demoEnvOk`. -/
theorem C5_witness :
    demoAllOutcome.requests = IMAGE_PROMPTS.map Prod.fst ∧
    demoAllOutcome.results.map Prod.fst = IMAGE_PROMPTS.map Prod.fst ∧
    (IMAGE_PROMPTS.map Prod.fst).Nodup :=
  C5_all_entries demoEnvOk demoAllOutcome rfl

/-- C6: requesting a single named catalog entry processes exactly that
entry: the request log and the results contain only that identifier, and
every persisted file is that entry's own output file. -/
theorem C6_single_target (t : String) (cfg : AssetSpec) (env : String → HttpResponse)
    (o : RunOutcome)
    (hlk : IMAGE_PROMPTS.lookup t = some cfg)
    (hrun : runMain env t = Except.ok o) :
    o.requests = [t] ∧ o.results.map Prod.fst = [t] ∧
    ∀ f ∈ o.files, f.1 = cfg.filename := by
  obtain ⟨st, hloop, hres, hfiles, hreq, -, -, -⟩ := runMain_ok_elim hrun
  rw [targetsFor_single t cfg hlk] at hloop
  refine ⟨?_, ?_, ?_⟩
  · rw [hreq, runLoop_requests env [(t, cfg)] initState st hloop]
    simp [initState]
  · obtain ⟨tail, ht1, ht2⟩ := runLoop_results_extend env [(t, cfg)] initState st hloop
    rw [hres, ht1]
    simp [initState]
    simpa using ht2
  · intro f hf
    rw [hfiles] at hf
    rcases runLoop_files env [(t, cfg)] initState st hloop f hf with h1 | h1
    · simp [initState] at h1
    · simpa using h1

/-- The catalog entry for the large promo tile. -/
def promoLargeSpec : AssetSpec :=
  { title := "Large Promo Tile (920x680)"
    prompt := "Create a large promotional banner for \"PasteHost\" Chrome extension."
    filename := "promo_large_920x680.png" }

/-- C6 (witness): the statement at the concrete single-target `promo_large`
run under `demoEnvOk` (files projection taken on the two list conjuncts). -/
theorem C6_witness :
    demoPromoOutcome.requests = ["promo_large"] ∧
    demoPromoOutcome.results.map Prod.fst = ["promo_large"] :=
  ⟨(C6_single_target "promo_large" promoLargeSpec demoEnvOk demoPromoOutcome
      rfl rfl).1,
    (C6_single_target "promo_large" promoLargeSpec demoEnvOk demoPromoOutcome
      rfl rfl).2.1⟩

/-- C7: in an `all` run, an entry whose HTTP response has a non-200 status
gets exactly one request (no retry) and an absent client result, all
catalog entries are still processed in order, and the final results record
that entry as failed. -/
theorem C7_http_failure (env : String → HttpResponse) (ecfg : String × AssetSpec)
    (o : RunOutcome)
    (hmem : ecfg ∈ IMAGE_PROMPTS)
    (hfail : (env ecfg.1).status ≠ 200)
    (hrun : runMain env "all" = Except.ok o) :
    generate_image_with_gemini (env ecfg.1) = ClientResult.absent ∧
    o.requests = IMAGE_PROMPTS.map Prod.fst ∧
    o.requests.count ecfg.1 = 1 ∧
    o.results.lookup ecfg.1 = some { success := false, filename := none } := by
  have habs := client_non200 (env ecfg.1) hfail
  obtain ⟨st, hloop, hres, -, hreq, -, -, -⟩ := runMain_ok_elim hrun
  rw [targetsFor_all] at hloop
  have hreqeq : o.requests = IMAGE_PROMPTS.map Prod.fst := by
    rw [hreq, runLoop_requests env IMAGE_PROMPTS initState st hloop]
    simp [initState]
  refine ⟨habs, hreqeq, ?_, ?_⟩
  · rw [hreqeq]
    exact List.count_eq_one_of_mem (by decide) (List.mem_map_of_mem Prod.fst hmem)
  · rw [hres]
    exact runLoop_lookup_absent env IMAGE_PROMPTS initState st ecfg hloop hmem habs
      (by simp [initState]) (by decide)

/-- The catalog entry for the small promo tile. -/
def promoSmallSpec : AssetSpec :=
  { title := "Small Promo Tile (440x280)"
    prompt := "Create a promotional banner for \"PasteHost\" Chrome extension."
    filename := "promo_small_440x280.png" }

/-- C7 (witness): the statement at the concrete `all` run under
`demoEnvOneFail`, where the `promo_small` request returns HTTP 500. -/
theorem C7_witness :
    generate_image_with_gemini (demoEnvOneFail "promo_small") = ClientResult.absent ∧
    demoOneFailOutcome.requests = IMAGE_PROMPTS.map Prod.fst ∧
    demoOneFailOutcome.requests.count "promo_small" = 1 ∧
    demoOneFailOutcome.results.lookup "promo_small" =
      some { success := false, filename := none } :=
  C7_http_failure demoEnvOneFail ("promo_small", promoSmallSpec) demoOneFailOutcome
    (by decide) (by decide) rfl


/-- Every catalog entry named `icon` has output filename `icon128.png`. -/
lemma catalog_icon_filename :
    ∀ e ∈ IMAGE_PROMPTS, e.1 = "icon" → e.2.filename = "icon128.png" := by decide

/-- C8: for every 200 response whose well-formed body has a first candidate
none of whose parts carries an `inlineData` key, the client returns an
absent result, and a run requesting that entry completes without crashing,
recording the entry as a failure. -/
theorem C8_no_inline (kvs ckvs contkvs : List (String × JVal)) (cs ps : List JVal)
    (t : String) (cfg : AssetSpec) (env : String → HttpResponse)
    (hc : kvs.lookup "candidates" = some (JVal.arr (JVal.obj ckvs :: cs)))
    (hcon : ckvs.lookup "content" = some (JVal.obj contkvs))
    (hparts : contkvs.lookup "parts" = some (JVal.arr ps))
    (hnone : ∀ q ∈ ps, q.hasKey "inlineData" = Except.ok false)
    (hlk : IMAGE_PROMPTS.lookup t = some cfg)
    (henv : env t = { status := 200, body := some (JVal.obj kvs) }) :
    generate_image_with_gemini (env t) = ClientResult.absent ∧
    runMain env t = Except.ok
      { results := [(t, { success := false, filename := none })]
        files := []
        requests := [t]
        derivationCalls := 0
        success_count := 0
        total := 6 } := by
  have habs : generate_image_with_gemini (env t) = ClientResult.absent := by
    rw [henv]
    apply client_absent_of_parse_none _ (JVal.obj kvs) rfl rfl
    rw [parseImageE_shape kvs ckvs contkvs cs ps JVal.null hc hcon hparts
      (findInlineData_none ps hnone)]
    rfl
  exact ⟨habs, runMain_single_absent env t cfg hlk habs⟩

/-- The parts list of the C8 witness body: one text part, no inline data. -/
def w8parts : List JVal := [JVal.obj [("text", JVal.str "no image")]]

/-- The catalog entry for the popup screenshot. -/
def screenshotPopupSpec : AssetSpec :=
  { title := "Screenshot - Popup UI (1280x800)"
    prompt := "Create a screenshot mockup for PasteHost Chrome extension popup."
    filename := "screenshot_popup_1280x800.png" }

/-- C8 (witness): the statement at a concrete 200 response with a single
text part, for a single-target `screenshot_popup` run under
`demoEnvNoInline`. -/
theorem C8_witness :
    generate_image_with_gemini (demoEnvNoInline "screenshot_popup") =
      ClientResult.absent ∧
    runMain demoEnvNoInline "screenshot_popup" = Except.ok
      { results := [("screenshot_popup", { success := false, filename := none })]
        files := []
        requests := ["screenshot_popup"]
        derivationCalls := 0
        success_count := 0
        total := 6 } :=
  C8_no_inline [("candidates", JVal.arr [JVal.obj [("content",
      JVal.obj [("parts", JVal.arr w8parts)])]])]
    [("content", JVal.obj [("parts", JVal.arr w8parts)])]
    [("parts", JVal.arr w8parts)] [] w8parts
    "screenshot_popup" screenshotPopupSpec demoEnvNoInline
    rfl rfl rfl
    (by intro q hq; simp only [w8parts, List.mem_singleton] at hq; subst hq; rfl)
    rfl rfl

/-- C9: in every completed run, icon derivation is invoked at most once, and
when it is invoked the `icon` entry was requested and succeeded, appearing
in the results as a success with filename `icon128.png`; contrapositively,
if the icon entry did not succeed, derivation is never invoked. -/
theorem C9_icon_derivation (env : String → HttpResponse) (target : String)
    (o : RunOutcome) (hrun : runMain env target = Except.ok o) :
    o.derivationCalls ≤ 1 ∧
    (o.derivationCalls = 1 →
      o.results.lookup "icon" =
        some { success := true, filename := some "icon128.png" }) := by
  obtain ⟨st, hloop, hres, -, -, -, -, hder⟩ := runMain_ok_elim hrun
  have hinv := runLoop_icon env (targetsFor target) initState st hloop
    (fun e he => catalog_icon_filename e (targetsFor_mem target e he))
    (fun e he => by simp [initState])
    (targetsFor_nodup target)
    (fun p hp => by simp [initState] at hp)
  cases hip : st.icon_path with
  | none =>
    rw [hip] at hder
    have hD : o.derivationCalls = 0 := hder
    constructor
    · rw [hD]
      exact Nat.zero_le 1
    · intro h1
      rw [hD] at h1
      exact absurd h1 (by decide)
  | some p =>
    obtain ⟨hp1, hp2⟩ := hinv p hip
    rw [hip] at hder
    have hD : o.derivationCalls = if (st.files.lookup p).isSome then 1 else 0 := hder
    constructor
    · rw [hD]
      cases h2 : (st.files.lookup p).isSome <;> simp [h2]
    · intro h1
      rw [hres]
      exact hp2

/-- C9 (witness): the statement at the concrete `all` run under `demoEnvOk`,
whose icon entry succeeds and whose derivation count is 1. -/
theorem C9_witness :
    demoAllOutcome.derivationCalls ≤ 1 ∧
    demoAllOutcome.results.lookup "icon" =
      some { success := true, filename := some "icon128.png" } :=
  ⟨(C9_icon_derivation demoEnvOk "all" demoAllOutcome rfl).1,
    (C9_icon_derivation demoEnvOk "all" demoAllOutcome rfl).2 rfl⟩

/-- C10: when the first part containing an `inlineData` key maps its `data`
field to the empty string or omits the field entirely, the client reports
missing image data and returns an absent result, never zero-byte success
bytes. -/
theorem C10_empty_inline (kvs ckvs contkvs inner : List (String × JVal))
    (cs pre rest : List JVal) (p : JVal)
    (hc : kvs.lookup "candidates" = some (JVal.arr (JVal.obj ckvs :: cs)))
    (hcon : ckvs.lookup "content" = some (JVal.obj contkvs))
    (hparts : contkvs.lookup "parts" = some (JVal.arr (pre ++ p :: rest)))
    (hpre : ∀ q ∈ pre, q.hasKey "inlineData" = Except.ok false)
    (hkey : p.hasKey "inlineData" = Except.ok true)
    (hinner : p.getItem "inlineData" = Except.ok (JVal.obj inner))
    (hdata : inner.lookup "data" = some (JVal.str "") ∨ inner.lookup "data" = none) :
    generate_image_with_gemini { status := 200, body := some (JVal.obj kvs) } =
      ClientResult.absent := by
  apply client_absent_of_parse_none _ (JVal.obj kvs) rfl rfl
  rcases hdata with hd | hd
  · have hf : findInlineData (pre ++ p :: rest) = Except.ok (JVal.str "") := by
      rw [findInlineData_first pre p rest inner hpre hkey hinner, hd]
      rfl
    rw [parseImageE_shape kvs ckvs contkvs cs (pre ++ p :: rest) (JVal.str "")
      hc hcon hparts hf]
    rfl
  · have hf : findInlineData (pre ++ p :: rest) = Except.ok JVal.null := by
      rw [findInlineData_first pre p rest inner hpre hkey hinner, hd]
      rfl
    rw [parseImageE_shape kvs ckvs contkvs cs (pre ++ p :: rest) JVal.null
      hc hcon hparts hf]
    rfl

/-- The C10 witness part: an `inlineData` object whose `data` is empty. -/
def w10part : JVal := JVal.obj [("inlineData", JVal.obj [("data", JVal.str "")])]

/-- C10 (witness): the statement at a concrete body whose only part carries
an `inlineData` key with an empty `data` string. -/
theorem C10_witness :
    generate_image_with_gemini
      { status := 200
        body := some (JVal.obj [("candidates", JVal.arr [JVal.obj [("content",
          JVal.obj [("parts", JVal.arr [w10part])])]])]) } = ClientResult.absent :=
  C10_empty_inline [("candidates", JVal.arr [JVal.obj [("content",
      JVal.obj [("parts", JVal.arr [w10part])])]])]
    [("content", JVal.obj [("parts", JVal.arr [w10part])])]
    [("parts", JVal.arr [w10part])]
    [("data", JVal.str "")]
    [] [] [] w10part
    rfl rfl rfl
    (by intro q hq; cases hq)
    rfl rfl (Or.inl rfl)

end ClipShip
